import Mathlib

/-!
Verification of the Threat-Intel-Agent repository's retrieval and
risk-scoring core against its natural-language specification.

The Python sources are shallowly embedded:
* `src/core/risk_scorer.py` — `RiskFactors`, `RiskScore`, the weighted
  scoring function, risk-level banding, confidence, and the extraction of
  risk factors from raw vulnerability records.
* `src/utils/hybrid_search.py` — score fusion (`_combine_results`) and the
  post-fusion ecosystem filter of `hybrid_search`.
* `src/tools/rag_tool.py` — the degraded scroll-fallback search path of
  `search_vulnerabilities` and the identifier lookup
  `get_vulnerability_by_id`.
* `src/server/mcp_server.py` — the exposed `get_vulnerability_by_id`
  tool, which validates the identifier format (and rejects empty input)
  before delegating to the rag-tool lookup.

Python floats are modelled as rationals (ℚ); all arithmetic in the scoring
and fusion code is exact at the modelled scale.  Python's stable `sort`
(Timsort) is modelled by a stable insertion sort (`sortDesc`): any two
stable sorts by the same key compute the same list.  Python dicts are
modelled as association lists with insertion-order semantics (in-place
update keeps position, a new key is appended), matching dict iteration
order.  String text processing is written over the underlying character
lists so that concrete runs evaluate; the modelled corpus text is ASCII
and space-separated.
-/

namespace ThreatIntel

/-! ## Risk scorer (src/core/risk_scorer.py) -/

/-- `RiskFactors` dataclass (risk_scorer.py lines 13–23), with the
dataclass field defaults. -/
structure RiskFactors where
  cvss_score : ℚ := 0
  epss_score : ℚ := 0
  kev_flag : Bool := false
  asset_criticality : ℚ := 1
  internet_exposure : Bool := false
  exploit_available : Bool := false
  patch_available : Bool := true
  days_since_published : ℤ := 0
deriving DecidableEq

/-- `RiskScore` dataclass (risk_scorer.py lines 25–38). -/
structure RiskScore where
  overall_score : ℚ
  cvss_contribution : ℚ
  epss_contribution : ℚ
  kev_contribution : ℚ
  asset_contribution : ℚ
  exposure_contribution : ℚ
  exploit_contribution : ℚ
  patch_contribution : ℚ
  time_contribution : ℚ
  risk_level : String
  confidence : ℚ
deriving DecidableEq

/-- `self.weights` (risk_scorer.py lines 45–54). -/
def weight_cvss : ℚ := 25/100
def weight_epss : ℚ := 20/100
def weight_kev : ℚ := 15/100
def weight_asset : ℚ := 15/100
def weight_exposure : ℚ := 10/100
def weight_exploit : ℚ := 10/100
def weight_patch : ℚ := 3/100
def weight_time : ℚ := 2/100

/-- `self.thresholds` (risk_scorer.py lines 57–62). -/
def threshold_CRITICAL : ℚ := 8/10
def threshold_HIGH : ℚ := 6/10
def threshold_MEDIUM : ℚ := 4/10

/-- `RiskScorer._determine_risk_level` (risk_scorer.py lines 123–132). -/
def determine_risk_level (score : ℚ) : String :=
  if threshold_CRITICAL ≤ score then "CRITICAL"
  else if threshold_HIGH ≤ score then "HIGH"
  else if threshold_MEDIUM ≤ score then "MEDIUM"
  else "LOW"

/-- `RiskScorer._calculate_confidence` (risk_scorer.py lines 134–162):
eight availability indicators, six of which are the constant `1.0`. -/
def calculate_confidence (f : RiskFactors) : ℚ :=
  let confidence_factors : List ℚ :=
    [if 0 < f.cvss_score then 1 else 0,
     if 0 < f.epss_score then 1 else 0,
     1, 1, 1, 1, 1, 1]
  confidence_factors.sum / (confidence_factors.length : ℚ)

/-- `RiskScorer.calculate_risk_score` (risk_scorer.py lines 64–121). -/
def calculate_risk_score (f : RiskFactors) : RiskScore :=
  let cvss_score := min (f.cvss_score / 10) 1
  let epss_score := min f.epss_score 1
  let kev_score : ℚ := if f.kev_flag then 1 else 0
  let asset_score := min (f.asset_criticality / 3) 1
  let exposure_score : ℚ := if f.internet_exposure then 1 else 0
  let exploit_score : ℚ := if f.exploit_available then 1 else 0
  let patch_score : ℚ := if f.patch_available then 0 else 1
  let time_score := min ((f.days_since_published : ℚ) / 365) 1 * (1/2)
  let overall_score :=
    weight_cvss * cvss_score +
    weight_epss * epss_score +
    weight_kev * kev_score +
    weight_asset * asset_score +
    weight_exposure * exposure_score +
    weight_exploit * exploit_score +
    weight_patch * patch_score +
    weight_time * time_score
  { overall_score := overall_score
    cvss_contribution := weight_cvss * cvss_score
    epss_contribution := weight_epss * epss_score
    kev_contribution := weight_kev * kev_score
    asset_contribution := weight_asset * asset_score
    exposure_contribution := weight_exposure * exposure_score
    exploit_contribution := weight_exploit * exploit_score
    patch_contribution := weight_patch * patch_score
    time_contribution := weight_time * time_score
    risk_level := determine_risk_level overall_score
    confidence := calculate_confidence f }

/-! ## Risk-factor extraction (risk_scorer.py lines 164–234) -/

/-- One entry of `vuln_data["severity"]`.  The raw `score` value is a
dynamically-typed JSON field run through Python's `float(...)`; it is
modelled as `some v` when `float(sev.get("score", 0))` succeeds with
value `v` (a missing `score` key parses as `0.0`) and `none` when it
raises `ValueError`/`TypeError`. -/
structure Severity where
  type : String
  score : Option ℚ
deriving DecidableEq

/-- The CVSS-extraction loop of
`RiskScorer.extract_risk_factors_from_vulnerability`
(risk_scorer.py lines 171–180): scan the severity list in order; on the
first entry whose `type` is `CVSS_V3` or `CVSS_V2`, try to parse its
score and `break`; on a parse failure `continue` with later entries;
`0.0` when nothing matches. -/
def extract_cvss_score : List Severity → ℚ
  | [] => 0
  | sev :: rest =>
    if sev.type == "CVSS_V3" || sev.type == "CVSS_V2" then
      match sev.score with
      | some v => v
      | none => extract_cvss_score rest
    else extract_cvss_score rest

/-- An entry of a package's `ranges[..].events`; `fixed` models
`"fixed" in event` (risk_scorer.py line 211). -/
structure EventInfo where
  fixed : Bool
deriving DecidableEq

/-- An entry of a package's `ranges`; a range dict without an
`events` key behaves like `events = []` (the inner loop is skipped). -/
structure RangeInfo where
  events : List EventInfo
deriving DecidableEq

/-- An entry of `vuln_data["affected_packages"]`; a non-dict entry or
one without a `ranges` key behaves like `ranges = []`. -/
structure AffectedPackage where
  ranges : List RangeInfo
deriving DecidableEq

/-- The patch-availability loop of
`RiskScorer.extract_risk_factors_from_vulnerability`
(risk_scorer.py lines 203–213): `patch_available` starts at `True` and
the nested loops assign `True` again when a `fixed` event is found
(the `break` only exits the innermost loop and is immaterial because
no branch ever assigns `False`). -/
def extract_patch_available (pkgs : List AffectedPackage) : Bool :=
  pkgs.foldl (fun acc pkg =>
    pkg.ranges.foldl (fun acc2 r =>
      r.events.foldl (fun acc3 e => if e.fixed then true else acc3) acc2) acc) true

/-! ## Identifier lookup (src/tools/rag_tool.py lines 265–361) -/

/-- The payload fields of a stored vulnerability point that
`get_vulnerability_by_id` matches on. -/
structure VRecord where
  id : String
  aliases : List String
  ecosystem : String
deriving DecidableEq

/-- Python's `str.upper()`, written over the underlying character list
(so that it evaluates on concrete literals; the modelled identifiers are
ASCII). -/
def strToUpper (s : String) : String := String.mk (s.data.map Char.toUpper)

/-- `OSVRAGTool.get_vulnerability_by_id` (rag_tool.py lines 265–361)
against a healthy index holding `corpus`: first a scroll filtered on
`aliases` containing `vuln_id`, then a scroll filtered on `id` equal to
`vuln_id.upper()`, each taking the first match; `None` when neither
matches.  This rag-tool layer performs no validation of `vuln_id` and
its outer `except` returns `None`, so it never raises; the exposed MCP
tool wrapping it validates the format first
(`mcp_get_vulnerability_by_id` below). -/
def get_vulnerability_by_id (corpus : List VRecord) (vuln_id : String) :
    Option VRecord :=
  match corpus.find? (fun r => r.aliases.contains vuln_id) with
  | some r => some r
  | none => corpus.find? (fun r => r.id == strToUpper vuln_id)

/-- Split a character list on a separator character (Python
`str.split("-")` semantics: keeps empty groups). -/
def splitOnChar (sep : Char) : List Char → List (List Char)
  | [] => [[]]
  | c :: rest =>
    if c = sep then [] :: splitOnChar sep rest
    else
      match splitOnChar sep rest with
      | [] => [[c]]
      | g :: gs => (c :: g) :: gs

/-- Modelled from the spec: the generic identifier grammar of §4.5
(`PREFIX-YYYY-DIGITS` or `PREFIX-xxxx-xxxx-xxxx` alphanumeric groups,
any alphabetic prefix, any digit count).  The deployed validation
(`matches_cve_ghsa_regex` below, from mcp_server.py line 150) enforces
a strictly narrower language; this spec-side definition exists to
compare the two. -/
def spec_valid_identifier (s : String) : Bool :=
  match splitOnChar '-' s.toList with
  | [pre, year, digits] =>
    !pre.isEmpty && pre.all Char.isAlpha &&
    year.length == 4 && year.all Char.isDigit &&
    !digits.isEmpty && digits.all Char.isDigit
  | [pre, g1, g2, g3] =>
    !pre.isEmpty && pre.all Char.isAlpha &&
    !g1.isEmpty && g1.all Char.isAlphanum &&
    !g2.isEmpty && g2.all Char.isAlphanum &&
    !g3.isEmpty && g3.all Char.isAlphanum
  | _ => false

/-- The identifier regex of the exposed MCP tool (mcp_server.py line
150): `^(CVE-\d{4}-\d{4,7}|GHSA-[a-z0-9]{4}-[a-z0-9]{4}-[a-z0-9]{4})$`
with `re.IGNORECASE`, written over dash-separated character groups
(`\d` and `[a-z0-9]` are ASCII classes; `Char.isAlphanum` is the
ignore-case `[a-z0-9]`; Python's `$` would also tolerate one trailing
newline, which the modelled identifiers do not contain). -/
def matches_cve_ghsa_regex (s : String) : Bool :=
  match splitOnChar '-' s.toList with
  | [pre, year, digits] =>
    pre.map Char.toLower == "cve".toList &&
    year.length == 4 && year.all Char.isDigit &&
    decide (4 ≤ digits.length) && decide (digits.length ≤ 7) &&
    digits.all Char.isDigit
  | [pre, g1, g2, g3] =>
    pre.map Char.toLower == "ghsa".toList &&
    g1.length == 4 && g1.all Char.isAlphanum &&
    g2.length == 4 && g2.all Char.isAlphanum &&
    g3.length == 4 && g3.all Char.isAlphanum
  | _ => false

/-- The exposed `get_vulnerability_by_id` MCP tool (mcp_server.py lines
126–159), past authentication (`check_auth`, which concerns the API
key, not the identifier): reject empty/whitespace input
(`not vuln_id or not vuln_id.strip()`, whitespace modelled as spaces),
then reject input failing the identifier regex — both before any index
I/O — and only then delegate to the rag-tool lookup, whose result is
returned as-is. -/
def mcp_get_vulnerability_by_id (corpus : List VRecord) (vuln_id : String) :
    Except String (Option VRecord) :=
  if vuln_id.data.all (fun c => c = ' ') then
    Except.error "Vulnerability ID cannot be empty"
  else if !(matches_cve_ghsa_regex vuln_id) then
    Except.error
      "Invalid vulnerability ID format. Use CVE-XXXX-XXXX or GHSA-XXXX-XXXX-XXXX"
  else
    Except.ok (get_vulnerability_by_id corpus vuln_id)

/-! ## Stable descending sort

Python's `list.sort(key=..., reverse=True)` and
`sorted(..., key=..., reverse=True)` are stable: elements with equal keys
keep their original relative order.  `sortDesc` is the straightforward
stable insertion sort by a rational key, descending; it computes the same
list as any other stable descending sort by the same key. -/

/-- Insert `x` before the first element whose key is not larger
(so an element inserted later goes after earlier elements with an
equal key). -/
def insDesc {α : Type} (key : α → ℚ) (x : α) : List α → List α
  | [] => [x]
  | y :: ys => if key y ≤ key x then x :: y :: ys else y :: insDesc key x ys

/-- Stable descending insertion sort by a rational key. -/
def sortDesc {α : Type} (key : α → ℚ) : List α → List α
  | [] => []
  | x :: xs => insDesc key x (sortDesc key xs)

/-! ## Score fusion (src/utils/hybrid_search.py lines 389–443) -/

/-- A search hit entering fusion: its payload identity fields plus the
single score its source assigned (`bm25_score` for the BM25 list,
`vector_score` for the vector list). -/
structure InDoc where
  id : String
  ecosystem : String
  score : ℚ
deriving DecidableEq

/-- One value of the `doc_scores` dict of `_combine_results`:
`{"doc": ..., "bm25_score": ..., "vector_score": ...}`. -/
structure CEntry where
  doc : InDoc
  bm25_score : ℚ
  vector_score : ℚ
deriving DecidableEq

/-- A fused result document carrying both raw scores and the combined
score (`_combine_results` mutates the doc dict in place; the fields it
reads and writes are modelled). -/
structure OutDoc where
  id : String
  ecosystem : String
  bm25_score : ℚ
  vector_score : ℚ
  combined_score : ℚ
deriving DecidableEq

/-- Python dict assignment `m[k] = v` on an insertion-ordered
association list: an existing key keeps its position, a new key is
appended. -/
def assocSet (m : List (String × CEntry)) (k : String) (v : CEntry) :
    List (String × CEntry) :=
  if m.any (fun p => p.1 == k) then
    m.map (fun p => if p.1 == k then (k, v) else p)
  else m ++ [(k, v)]

/-- Python dict lookup `m.get(k)` / `k in m`. -/
def assocGet (m : List (String × CEntry)) (k : String) : Option CEntry :=
  (m.find? (fun p => p.1 == k)).map Prod.snd

/-- The first loop of `_combine_results` (hybrid_search.py lines
400–408): BM25 hits enter `doc_scores` keyed by id — skipping hits with
a falsy (empty) id — with `vector_score = 0`. -/
def process_bm25 (bm25_results : List InDoc) : List (String × CEntry) :=
  bm25_results.foldl
    (fun m d => if d.id == "" then m else assocSet m d.id ⟨d, d.score, 0⟩) []

/-- The second loop of `_combine_results` (hybrid_search.py lines
410–420): a vector hit whose id is already present only overwrites that
entry's `vector_score`; otherwise a fresh entry with `bm25_score = 0`
is appended. -/
def process_vector (vector_results : List InDoc)
    (m : List (String × CEntry)) : List (String × CEntry) :=
  vector_results.foldl
    (fun m d =>
      match assocGet m d.id with
      | some e => assocSet m d.id ⟨e.doc, e.bm25_score, d.score⟩
      | none => m ++ [(d.id, ⟨d, 0, d.score⟩)]) m

/-- BM25 normalization (hybrid_search.py line 428):
`bm25_score / 10.0 if bm25_score > 0 else 0`. -/
def bm25_norm (b : ℚ) : ℚ := if 0 < b then b / 10 else 0

/-- The scoring step of `_combine_results` (hybrid_search.py lines
422–438) for one `doc_scores` entry. -/
def entry_out (vector_weight bm25_weight : ℚ) (p : String × CEntry) : OutDoc :=
  { id := p.2.doc.id
    ecosystem := p.2.doc.ecosystem
    bm25_score := p.2.bm25_score
    vector_score := p.2.vector_score
    combined_score :=
      vector_weight * p.2.vector_score + bm25_weight * bm25_norm p.2.bm25_score }

/-- The `vector_score` the fused entry for key `k` ends up with: the
score of the first vector hit with that id, `0` when there is none. -/
def vector_score_of (vector_results : List InDoc) (k : String) : ℚ :=
  ((vector_results.find? (fun d => d.id == k)).map InDoc.score).getD 0

/-- `HybridSearchEngine._combine_results` (hybrid_search.py lines
389–443): build `doc_scores` from both result lists, score every entry,
and stable-sort by `combined_score` descending (dict iteration order is
insertion order; `list.sort` is stable). -/
def combine_results (bm25_results vector_results : List InDoc)
    (vector_weight bm25_weight : ℚ) : List OutDoc :=
  sortDesc OutDoc.combined_score
    ((process_vector vector_results (process_bm25 bm25_results)).map
      (entry_out vector_weight bm25_weight))

/-- `HybridSearchEngine.hybrid_search` after both retrievals returned
(hybrid_search.py lines 269–289): fuse, then — when `ecosystems` is
truthy (non-empty) — keep only results whose `ecosystem` is in the
requested list, then truncate to `limit`.  The two retrieval lists are
the adapter outputs, passed in here. -/
def hybrid_search (bm25_results vector_results : List InDoc)
    (ecosystems : List String) (limit : ℕ)
    (vector_weight bm25_weight : ℚ) : List OutDoc :=
  let combined := combine_results bm25_results vector_results
    vector_weight bm25_weight
  let filtered :=
    if ecosystems.isEmpty then combined
    else combined.filter (fun d => ecosystems.contains d.ecosystem)
  filtered.take limit

/-! ## Degraded scroll-fallback search
(src/tools/rag_tool.py lines 146–257) -/

/-- Split a character list into words on spaces, dropping empties
(Python `str.split()`; the modelled corpus uses single-space
separation). -/
def split_ws (cs : List Char) : List (List Char) :=
  (splitOnChar ' ' cs).filter (fun g => !g.isEmpty)

/-- `s.lower().split()` as a list of lower-cased words. -/
def lower_words (s : String) : List (List Char) :=
  split_ws (s.data.map Char.toLower)

/-- `set(query.lower().split())` (rag_tool.py line 163); only its
cardinality and membership are consumed, so a deduplicated list models
the set. -/
def query_words (query : String) : List (List Char) :=
  (lower_words query).dedup

/-- Whether `needle` is an initial segment of `hay`. -/
def leadsWith : List Char → List Char → Bool
  | [], _ => true
  | _ :: _, [] => false
  | a :: as, b :: bs => a == b && leadsWith as bs

/-- Python's substring test `needle in hay` on character lists. -/
def occursIn (needle : List Char) : List Char → Bool
  | [] => needle.isEmpty
  | c :: rest => leadsWith needle (c :: rest) || occursIn needle rest

/-- The payload fields of a scrolled point that the fallback scoring
reads: `content`, `ecosystem`, and the names of the affected packages
(`affected[..].package.name`, rag_tool.py lines 171–176). -/
structure ScrollPayload where
  id : String
  content : String
  ecosystem : String
  package_names : List String
deriving DecidableEq

/-- The heuristic relevance score of the scroll-fallback path
(rag_tool.py lines 178–195): `0.5 ×` the fraction of query words found
among the content's words, `+ 0.3` when any query word is a substring
of an affected-package name, `+ 0.2` when any query word is a substring
of the ecosystem tag. -/
def heuristic_score (qw : List (List Char)) (p : ScrollPayload) : ℚ :=
  let content_words := (lower_words p.content).dedup
  let matching := qw.filter (fun w => content_words.contains w)
  let base : ℚ := (matching.length : ℚ) / ((max qw.length 1 : ℕ) : ℚ) * (1/2)
  let pkg_bonus : ℚ :=
    if p.package_names.any
        (fun n => qw.any (fun w => occursIn w (n.data.map Char.toLower)))
    then 3/10 else 0
  let eco_bonus : ℚ :=
    if qw.any (fun w => occursIn w (p.ecosystem.data.map Char.toLower))
    then 1/5 else 0
  base + pkg_bonus + eco_bonus

/-- The candidate-selection loop of the scroll fallback (rag_tool.py
lines 165–205): a scanned point is kept when its score is positive or
when fewer than `limit` candidates have been kept so far. -/
def scroll_select (qw : List (List Char)) (limit : ℕ)
    (points : List ScrollPayload) : List (ScrollPayload × ℚ) :=
  points.foldl
    (fun acc p =>
      let score := heuristic_score qw p
      if 0 < score ∨ acc.length < limit then acc ++ [(p, score)] else acc) []

/-- The whole scroll fallback (rag_tool.py lines 146–209): select,
stable-sort by score descending, truncate to `limit`. -/
def scroll_fallback (query : String) (points : List ScrollPayload)
    (limit : ℕ) : List (ScrollPayload × ℚ) :=
  (sortDesc Prod.snd (scroll_select (query_words query) limit points)).take limit

/-- A processed entry of the returned `results` list
(rag_tool.py lines 234–249): the payload's own fields plus the
heuristic score as `similarity_score`. -/
structure ResultEntry where
  id : String
  ecosystem : String
  similarity_score : ℚ
deriving DecidableEq

/-- `OSVRAGTool.search_vulnerabilities` on the degraded scroll path
(rag_tool.py lines 119–257): the requested `ecosystems` only shaped the
native Qdrant filter of the search call that already failed; the scroll
fallback scans the whole collection without it, and the result loop
(lines 234–249) applies no ecosystem filter either, so `ecosystems` is
unused on this path. -/
def search_vulnerabilities_scroll_path (query : String)
    (ecosystems : List String) (points : List ScrollPayload)
    (limit : ℕ) : List ResultEntry :=
  (scroll_fallback query points limit).map
    (fun e => { id := e.1.id, ecosystem := e.1.ecosystem,
                similarity_score := e.2 })

/-! ## Concrete inputs used by counterexamples and witnesses -/

/-- A severity list carrying a parseable CVSS_V2 entry before a
parseable CVSS_V3 entry. -/
def sevsV2First : List Severity :=
  [{ type := "CVSS_V2", score := some 5 },
   { type := "CVSS_V3", score := some (98/10) }]

/-- Modelled from the spec (claim C7's reading): prefer the first
parseable `CVSS_V3` entry over any `CVSS_V2` entry. -/
def spec_extract_cvss_score (sevs : List Severity) : ℚ :=
  match (sevs.filter (fun s => s.type == "CVSS_V3")).findSome? Severity.score with
  | some v => v
  | none =>
    (((sevs.filter (fun s => s.type == "CVSS_V2")).findSome? Severity.score).getD 0)

/-- An affected package with an `introduced` event but no `fixed`
event: by the spec no patch is available for it. -/
def pkgNoFix : List AffectedPackage :=
  [{ ranges := [{ events := [{ fixed := false }] }] }]

/-- A small healthy corpus without any record matching `not-an-id`. -/
def c5corpus : List VRecord :=
  [{ id := "CVE-2024-0001", aliases := ["GHSA-aaaa-bbbb-cccc"],
     ecosystem := "npm" }]

/-- An npm-tagged corpus point relevant to a prototype-pollution
query. -/
def c2doc : ScrollPayload :=
  { id := "OSV-1", content := "prototype pollution in lodash",
    ecosystem := "npm", package_names := ["lodash"] }

/-- A vector hit used in the hybrid-search filter witness. -/
def c2wdoc : InDoc := { id := "X", ecosystem := "npm", score := 1 }

/-- Two vector hits with equal scores, listed with the larger id
first. -/
def c3B : InDoc := { id := "B", ecosystem := "npm", score := 1/2 }

/-- See `c3B`. -/
def c3A : InDoc := { id := "A", ecosystem := "npm", score := 1/2 }

/-- A corpus point with no lexical overlap with the query `alpha`. -/
def c4zero : ScrollPayload :=
  { id := "OSV-2", content := "unrelated words here",
    ecosystem := "Go", package_names := [] }

/-! ## Theorems for the risk-level bands (claim C6) -/

/-- **C6.** Risk-level classification is lower-bound inclusive:
`CRITICAL` exactly on scores `≥ 0.8`, `HIGH` exactly on `[0.6, 0.8)`,
`MEDIUM` exactly on `[0.4, 0.6)`, `LOW` exactly below `0.4`; in
particular `0.8` maps to `CRITICAL` and `0.79999` maps to `HIGH`
(risk_scorer.py lines 123–132). -/
theorem risk_level_band_spec : ∀ s : ℚ,
    (determine_risk_level s = "CRITICAL" ↔ 8/10 ≤ s) ∧
    (determine_risk_level s = "HIGH" ↔ 6/10 ≤ s ∧ s < 8/10) ∧
    (determine_risk_level s = "MEDIUM" ↔ 4/10 ≤ s ∧ s < 6/10) ∧
    (determine_risk_level s = "LOW" ↔ s < 4/10) ∧
    determine_risk_level (8/10) = "CRITICAL" ∧
    determine_risk_level (79999/100000) = "HIGH" := by
  have hCH : ("CRITICAL" : String) ≠ "HIGH" := by decide
  have hCM : ("CRITICAL" : String) ≠ "MEDIUM" := by decide
  have hCL : ("CRITICAL" : String) ≠ "LOW" := by decide
  have hHM : ("HIGH" : String) ≠ "MEDIUM" := by decide
  have hHL : ("HIGH" : String) ≠ "LOW" := by decide
  have hML : ("MEDIUM" : String) ≠ "LOW" := by decide
  intro s
  refine ⟨?_, ?_, ?_, ?_, ?_, ?_⟩
  · unfold determine_risk_level threshold_CRITICAL threshold_HIGH threshold_MEDIUM
    split_ifs with h1 h2 h3 <;> simp_all <;>
      first | linarith | (intro h; linarith) | (constructor <;> linarith)
  · unfold determine_risk_level threshold_CRITICAL threshold_HIGH threshold_MEDIUM
    split_ifs with h1 h2 h3 <;> simp_all <;>
      first | linarith | (intro h; linarith) | (constructor <;> linarith)
  · unfold determine_risk_level threshold_CRITICAL threshold_HIGH threshold_MEDIUM
    split_ifs with h1 h2 h3 <;> simp_all <;>
      first | linarith | (intro h; linarith) | (constructor <;> linarith)
  · unfold determine_risk_level threshold_CRITICAL threshold_HIGH threshold_MEDIUM
    split_ifs with h1 h2 h3 <;> simp_all <;>
      first | linarith | (intro h; linarith) | (constructor <;> linarith)
  · unfold determine_risk_level threshold_CRITICAL
    norm_num
  · unfold determine_risk_level threshold_CRITICAL threshold_HIGH
    norm_num

/-! ## Theorems for confidence (claim C10) -/

/-- **C10.** For every input the confidence is one of
`0.75`, `0.875`, `1.0`, hence always at least `0.75`: six of the eight
availability indicators are the constant `1.0`, and only the CVSS and
EPSS indicators (zero exactly when the respective score is `0`) can be
unobserved (risk_scorer.py lines 134–162). -/
theorem confidence_three_values : ∀ f : RiskFactors,
    (calculate_confidence f = 3/4 ∨ calculate_confidence f = 7/8 ∨
      calculate_confidence f = 1) ∧
    3/4 ≤ calculate_confidence f := by
  intro f
  unfold calculate_confidence
  by_cases h1 : 0 < f.cvss_score <;> by_cases h2 : 0 < f.epss_score <;>
    simp [h1, h2] <;> norm_num

/-! ## Theorems for CVSS extraction (claim C7) -/

/-- **C7 counterexample.** With a parseable `CVSS_V2` entry (score 5)
listed before a parseable `CVSS_V3` entry (score 9.8), the code takes
the `CVSS_V2` value 5, while the claimed V3-over-V2 preference would
take 9.8: the code has no preference between CVSS versions, only list
order (risk_scorer.py lines 174–180). -/
theorem extract_cvss_no_v3_preference :
    extract_cvss_score sevsV2First = 5 ∧
    spec_extract_cvss_score sevsV2First = 98/10 ∧
    (5 : ℚ) ≠ 98/10 := by
  refine ⟨?_, ?_, by norm_num⟩
  · simp +decide [extract_cvss_score, sevsV2First]
  · simp +decide [spec_extract_cvss_score, sevsV2First, List.filter_cons,
      List.findSome?_cons]

/-- **C7 amended.** The extracted CVSS score is the score of the first
severity entry, in list order, whose type is `CVSS_V3` or `CVSS_V2`
(no preference between the two) and whose score value parses;
unparseable entries are skipped so a later entry can win; `0.0` when no
entry qualifies.  Parse failures never raise
(risk_scorer.py lines 171–180). -/
theorem extract_cvss_first_match_spec (sevs : List Severity) :
    extract_cvss_score sevs =
      (((sevs.filter (fun s =>
          (s.type == "CVSS_V3" || s.type == "CVSS_V2") && s.score.isSome)).head?.bind
        Severity.score).getD 0) := by
  induction sevs with
  | nil => rfl
  | cons sev rest ih =>
    by_cases ht : (sev.type == "CVSS_V3" || sev.type == "CVSS_V2") = true
    · cases hs : sev.score with
      | some v =>
        simp [extract_cvss_score, List.filter_cons, ht, hs, Option.isSome]
      | none =>
        simp only [extract_cvss_score, ht, if_true, hs]
        simp [List.filter_cons, ht, hs, Option.isSome, ih]
    · simp only [extract_cvss_score, ht, if_false]
      simp [List.filter_cons, ht, ih]

/-! ## Theorems for patch availability (claim C8) -/

/-- **C8 (code bug).** The extraction loop initialises
`patch_available = True` and only ever assigns `True`, so
`patch_available` is `true` for every input — including the failing
input `pkgNoFix`, which has no `fixed` event anywhere and whose
normalized patch score is therefore `0` (patch treated as available)
instead of the specified `1` (risk_scorer.py lines 203–213, 85–86). -/
theorem extract_patch_available_always_true :
    (∀ pkgs : List AffectedPackage, extract_patch_available pkgs = true) ∧
    extract_patch_available pkgNoFix = true ∧
    (calculate_risk_score
      { patch_available := extract_patch_available pkgNoFix }).patch_contribution = 0 := by
  have hev : ∀ (evs : List EventInfo) (b : Bool), b = true →
      evs.foldl (fun acc3 e => if e.fixed then true else acc3) b = true := by
    intro evs
    induction evs with
    | nil => intro b hb; simpa using hb
    | cons e t ih =>
      intro b hb
      simp only [List.foldl_cons]
      apply ih
      cases e.fixed <;> simp [hb]
  have hr : ∀ (rs : List RangeInfo) (b : Bool), b = true →
      rs.foldl (fun acc2 r =>
        r.events.foldl (fun acc3 e => if e.fixed then true else acc3) acc2) b = true := by
    intro rs
    induction rs with
    | nil => intro b hb; simpa using hb
    | cons r t ih =>
      intro b hb
      simp only [List.foldl_cons]
      exact ih _ (hev _ _ hb)
  have hall : ∀ pkgs : List AffectedPackage, extract_patch_available pkgs = true := by
    intro pkgs
    unfold extract_patch_available
    induction pkgs with
    | nil => rfl
    | cons p t ih =>
      simp only [List.foldl_cons]
      have : ∀ (b : Bool), b = true →
          t.foldl (fun acc pkg =>
            pkg.ranges.foldl (fun acc2 r =>
              r.events.foldl (fun acc3 e => if e.fixed then true else acc3) acc2) acc) b
            = true := by
        intro b hb
        subst hb
        exact ih
      exact this _ (hr _ _ rfl)
  refine ⟨hall, hall pkgNoFix, ?_⟩
  rw [hall pkgNoFix]
  simp [calculate_risk_score]

/-! ## Theorems for identifier lookup (claim C5) -/

/-- Every character of every group produced by `splitOnChar` comes from
the input list. -/
theorem splitOnChar_mem (sep : Char) :
    ∀ (cs : List Char) (g : List Char), g ∈ splitOnChar sep cs →
      ∀ c ∈ g, c ∈ cs := by
  intro cs
  induction cs with
  | nil =>
    intro g hg c hc
    simp [splitOnChar] at hg
    subst hg
    simp at hc
  | cons a rest ih =>
    intro g hg c hc
    by_cases ha : a = sep
    · rw [splitOnChar, if_pos ha] at hg
      rcases List.mem_cons.mp hg with rfl | hg'
      · simp at hc
      · exact List.mem_cons_of_mem _ (ih g hg' c hc)
    · rw [splitOnChar, if_neg ha] at hg
      cases hrec : splitOnChar sep rest with
      | nil =>
        rw [hrec] at hg
        rcases List.mem_singleton.mp hg with rfl
        rcases List.mem_singleton.mp hc with rfl
        exact List.mem_cons_self _ _
      | cons g0 gs =>
        rw [hrec] at hg
        rcases List.mem_cons.mp hg with rfl | hg'
        · rcases List.mem_cons.mp hc with rfl | hc'
          · exact List.mem_cons_self _ _
          · refine List.mem_cons_of_mem _ (ih g0 ?_ c hc')
            rw [hrec]
            exact List.mem_cons_self _ _
        · refine List.mem_cons_of_mem _ (ih g ?_ c hc)
          rw [hrec]
          exact List.mem_cons_of_mem _ hg'

/-- A string accepted by the identifier regex is not blank: its prefix
group starts with a letter drawn from the string itself. -/
theorem matches_regex_not_blank (s : String)
    (h : matches_cve_ghsa_regex s = true) :
    s.data.all (fun c => c = ' ') = false := by
  by_contra hc
  have hallb : s.data.all (fun c => c = ' ') = true := by
    cases hx : s.data.all (fun c => c = ' ')
    · exact absurd hx hc
    · rfl
  have hall : ∀ c ∈ s.data, c = ' ' := by
    intro c hmem
    simpa using List.all_eq_true.mp hallb c hmem
  unfold matches_cve_ghsa_regex at h
  split at h
  case h_1 pre year digits heq =>
    simp only [Bool.and_eq_true, beq_iff_eq] at h
    have hpre : pre.map Char.toLower = "cve".toList := h.1.1.1.1.1
    have hked : 'c' ∈ pre.map Char.toLower := by
      rw [hpre]
      decide
    rcases List.mem_map.mp hked with ⟨x, hx, hlow⟩
    have hxs : x ∈ s.toList := by
      refine splitOnChar_mem '-' s.toList pre ?_ x hx
      rw [heq]
      exact List.mem_cons_self _ _
    have hxsp : x = ' ' := hall x hxs
    rw [hxsp] at hlow
    exact absurd hlow (by decide)
  case h_2 pre g1 g2 g3 heq =>
    simp only [Bool.and_eq_true, beq_iff_eq] at h
    have hpre : pre.map Char.toLower = "ghsa".toList := h.1.1.1.1.1.1
    have hked : 'g' ∈ pre.map Char.toLower := by
      rw [hpre]
      decide
    rcases List.mem_map.mp hked with ⟨x, hx, hlow⟩
    have hxs : x ∈ s.toList := by
      refine splitOnChar_mem '-' s.toList pre ?_ x hx
      rw [heq]
      exact List.mem_cons_self _ _
    have hxsp : x = ' ' := hall x hxs
    rw [hxsp] at hlow
    exact absurd hlow (by decide)
  case h_3 =>
    exact absurd h (by simp)

/-- The rag-tool lookup layer returns `None` exactly when no record
matches by aliases or by upper-cased id (rag_tool.py lines 265–361);
used to characterize the `ok` branch of the exposed tool. -/
theorem get_by_id_none_iff_no_match (corpus : List VRecord) (s : String) :
    get_vulnerability_by_id corpus s = none ↔
      ∀ r ∈ corpus, s ∉ r.aliases ∧ r.id ≠ strToUpper s := by
  unfold get_vulnerability_by_id
  cases h1 : corpus.find? (fun r => r.aliases.contains s) with
  | some r =>
    simp only [reduceCtorEq, false_iff]
    intro hall
    have hr := List.find?_some h1
    have hmem := List.mem_of_find?_eq_some h1
    have := (hall r hmem).1
    simp at hr
    exact this hr
  | none =>
    have h1' := List.find?_eq_none.mp h1
    cases h2 : corpus.find? (fun r => r.id == strToUpper s) with
    | some r =>
      simp only [reduceCtorEq, false_iff]
      intro hall
      have hr := List.find?_some h2
      have hmem := List.mem_of_find?_eq_some h2
      have := (hall r hmem).2
      simp only [beq_iff_eq] at hr
      exact this hr
    | none =>
      have h2' := List.find?_eq_none.mp h2
      simp only [true_iff]
      intro r hmem
      constructor
      · intro hmemal
        have := h1' r hmem
        simp at this
        exact this hmemal
      · intro hid
        have := h2' r hmem
        simp only [beq_iff_eq] at this
        exact this hid

/-- **C5 counterexample.** `OSV-2024-1234` fits the claim's generic
`PREFIX-YYYY-DIGITS` grammar and matches no record of the corpus, so
by the claim the lookup should return null without raising; the
deployed tool instead rejects it with the format error before any
index I/O, because its regex only admits CVE and GHSA identifiers
(mcp_server.py lines 148–151). -/
theorem get_by_id_spec_valid_id_raises :
    spec_valid_identifier "OSV-2024-1234" = true ∧
    (∀ r ∈ c5corpus, "OSV-2024-1234" ∉ r.aliases ∧
      r.id ≠ strToUpper "OSV-2024-1234") ∧
    mcp_get_vulnerability_by_id c5corpus "OSV-2024-1234"
      = Except.error
        "Invalid vulnerability ID format. Use CVE-XXXX-XXXX or GHSA-XXXX-XXXX-XXXX" := by
  refine ⟨by decide, by decide, ?_⟩
  rfl

/-- **C5 amended.** The exposed `get_vulnerability_by_id` tool
(mcp_server.py lines 126–159) raises before any index I/O for every
input failing its concrete grammar — `CVE-YYYY-<4–7 digits>` or
`GHSA-xxxx-xxxx-xxxx` with exactly-four-character alphanumeric groups,
case-insensitive; empty or blank input gets the empty-id error — and
for every identifier accepted by that grammar it delegates to the
rag-tool lookup and returns null without raising exactly when no
record matches by aliases or upper-cased id.  Identifiers fitting the
spec's broader `PREFIX` grammar but not the CVE/GHSA regex are
rejected, not answered with null. -/
theorem mcp_get_by_id_spec (corpus : List VRecord) (s : String) :
    (s.data.all (fun c => c = ' ') = true →
      mcp_get_vulnerability_by_id corpus s
        = Except.error "Vulnerability ID cannot be empty") ∧
    (s.data.all (fun c => c = ' ') = false →
      matches_cve_ghsa_regex s = false →
      mcp_get_vulnerability_by_id corpus s
        = Except.error
          "Invalid vulnerability ID format. Use CVE-XXXX-XXXX or GHSA-XXXX-XXXX-XXXX") ∧
    (matches_cve_ghsa_regex s = true →
      mcp_get_vulnerability_by_id corpus s
        = Except.ok (get_vulnerability_by_id corpus s) ∧
      (mcp_get_vulnerability_by_id corpus s = Except.ok none ↔
        ∀ r ∈ corpus, s ∉ r.aliases ∧ r.id ≠ strToUpper s)) := by
  refine ⟨?_, ?_, ?_⟩
  · intro hblank
    rw [mcp_get_vulnerability_by_id, if_pos hblank]
  · intro hblank hreg
    rw [mcp_get_vulnerability_by_id,
      if_neg (by rw [hblank]; exact Bool.false_ne_true),
      if_pos (by rw [hreg]; rfl)]
  · intro hreg
    have hblank := matches_regex_not_blank s hreg
    have hok : mcp_get_vulnerability_by_id corpus s
        = Except.ok (get_vulnerability_by_id corpus s) := by
      rw [mcp_get_vulnerability_by_id,
        if_neg (by rw [hblank]; exact Bool.false_ne_true),
        if_neg (by rw [hreg]; simp)]
    refine ⟨hok, ?_⟩
    rw [hok]
    constructor
    · intro hsome
      have hnone : get_vulnerability_by_id corpus s = none :=
        Except.ok.inj hsome
      exact (get_by_id_none_iff_no_match corpus s).mp hnone
    · intro hall
      rw [(get_by_id_none_iff_no_match corpus s).mpr hall]

/-- Witness for C5 (amended): `CVE-2024-9999` passes the deployed
regex and is answered by the rag-tool lookup without raising, while
`not-an-id` is rejected with the format error. -/
theorem mcp_get_by_id_spec_witness :
    mcp_get_vulnerability_by_id c5corpus "CVE-2024-9999"
      = Except.ok (get_vulnerability_by_id c5corpus "CVE-2024-9999") ∧
    mcp_get_vulnerability_by_id c5corpus "not-an-id"
      = Except.error
        "Invalid vulnerability ID format. Use CVE-XXXX-XXXX or GHSA-XXXX-XXXX-XXXX" :=
  ⟨((mcp_get_by_id_spec c5corpus "CVE-2024-9999").2.2 (by decide)).1,
   (mcp_get_by_id_spec c5corpus "not-an-id").2.1 (by decide) (by decide)⟩

/-! ## Theorems for the overall score (claims C1 and C9) -/

/-- **C1.** For every well-formed `RiskFactors` input — CVSS in `[0,10]`,
EPSS in `[0,1]`, asset criticality in `[1,3]`, nonnegative age, the four
booleans — the weighted overall score lies in `[0,1]`: each normalized
factor lies in `[0,1]` and the eight weights are nonnegative and sum to
`1.0` (risk_scorer.py lines 43–54, 64–121). -/
theorem overall_score_unit_interval (f : RiskFactors)
    (hc0 : 0 ≤ f.cvss_score) (hc1 : f.cvss_score ≤ 10)
    (he0 : 0 ≤ f.epss_score) (he1 : f.epss_score ≤ 1)
    (ha0 : 1 ≤ f.asset_criticality) (ha1 : f.asset_criticality ≤ 3)
    (hd : 0 ≤ f.days_since_published) :
    0 ≤ (calculate_risk_score f).overall_score ∧
      (calculate_risk_score f).overall_score ≤ 1 := by
  have hcv : 0 ≤ min (f.cvss_score / 10) 1 ∧ min (f.cvss_score / 10) 1 ≤ 1 :=
    ⟨le_min (by linarith) (by norm_num), min_le_right _ _⟩
  have hep : 0 ≤ min f.epss_score 1 ∧ min f.epss_score 1 ≤ 1 :=
    ⟨le_min he0 (by norm_num), min_le_right _ _⟩
  have has : 0 ≤ min (f.asset_criticality / 3) 1 ∧ min (f.asset_criticality / 3) 1 ≤ 1 :=
    ⟨le_min (by linarith) (by norm_num), min_le_right _ _⟩
  have hdq : (0 : ℚ) ≤ (f.days_since_published : ℚ) := by exact_mod_cast hd
  have hti : 0 ≤ min ((f.days_since_published : ℚ) / 365) 1 * (1/2) ∧
      min ((f.days_since_published : ℚ) / 365) 1 * (1/2) ≤ 1 := by
    constructor
    · have : 0 ≤ min ((f.days_since_published : ℚ) / 365) 1 :=
        le_min (by linarith) (by norm_num)
      linarith
    · have : min ((f.days_since_published : ℚ) / 365) 1 ≤ 1 := min_le_right _ _
      linarith
  have hkv : 0 ≤ (if f.kev_flag then (1:ℚ) else 0) ∧
      (if f.kev_flag then (1:ℚ) else 0) ≤ 1 := by split <;> norm_num
  have hex : 0 ≤ (if f.internet_exposure then (1:ℚ) else 0) ∧
      (if f.internet_exposure then (1:ℚ) else 0) ≤ 1 := by split <;> norm_num
  have hxp : 0 ≤ (if f.exploit_available then (1:ℚ) else 0) ∧
      (if f.exploit_available then (1:ℚ) else 0) ≤ 1 := by split <;> norm_num
  have hpa : 0 ≤ (if f.patch_available then (0:ℚ) else 1) ∧
      (if f.patch_available then (0:ℚ) else 1) ≤ 1 := by split <;> norm_num
  unfold calculate_risk_score weight_cvss weight_epss weight_kev weight_asset
    weight_exposure weight_exploit weight_patch weight_time
  dsimp only
  constructor
  · nlinarith [hcv.1, hep.1, has.1, hti.1, hkv.1, hex.1, hxp.1, hpa.1]
  · nlinarith [hcv.2, hep.2, has.2, hti.2, hkv.2, hex.2, hxp.2, hpa.2,
      hcv.1, hep.1, has.1, hti.1, hkv.1, hex.1, hxp.1, hpa.1]

/-- Witness for C1 at the concrete factor set of spec §8 scenario
(CVSS 9.8, EPSS 0.9, KEV, criticality 3, exposed, exploit, no patch,
10 days old). -/
theorem overall_score_unit_interval_witness :
    0 ≤ (calculate_risk_score
      { cvss_score := 98/10, epss_score := 9/10, kev_flag := true,
        asset_criticality := 3, internet_exposure := true,
        exploit_available := true, patch_available := false,
        days_since_published := 10 }).overall_score ∧
    (calculate_risk_score
      { cvss_score := 98/10, epss_score := 9/10, kev_flag := true,
        asset_criticality := 3, internet_exposure := true,
        exploit_available := true, patch_available := false,
        days_since_published := 10 }).overall_score ≤ 1 :=
  overall_score_unit_interval _ (by norm_num) (by norm_num) (by norm_num)
    (by norm_num) (by norm_num) (by norm_num) (by norm_num)

/-- **C9.** The overall score is monotone in the CVSS factor: holding
every other field fixed, a larger `cvss_score` never yields a smaller
`overall_score` (risk_scorer.py lines 64–101; the CVSS term is
`0.25 * min(cvss/10, 1)` and `min` is monotone). -/
theorem overall_score_monotone_in_cvss (f : RiskFactors) (c₁ c₂ : ℚ)
    (h : c₁ ≤ c₂) :
    (calculate_risk_score { f with cvss_score := c₁ }).overall_score ≤
      (calculate_risk_score { f with cvss_score := c₂ }).overall_score := by
  have hmin : min (c₁ / 10) 1 ≤ min (c₂ / 10) 1 :=
    min_le_min (by linarith) le_rfl
  unfold calculate_risk_score weight_cvss weight_epss weight_kev weight_asset
    weight_exposure weight_exploit weight_patch weight_time
  dsimp only
  nlinarith [hmin]

/-- Witness for C9 at CVSS 3 versus CVSS 7 on otherwise-default
factors. -/
theorem overall_score_monotone_in_cvss_witness :
    (calculate_risk_score
      { ({} : RiskFactors) with cvss_score := 3 }).overall_score ≤
    (calculate_risk_score
      { ({} : RiskFactors) with cvss_score := 7 }).overall_score :=
  overall_score_monotone_in_cvss {} 3 7 (by norm_num)

/-! ## Sorting lemmas -/

/-- Inserting permutes. -/
theorem insDesc_perm {α : Type} (key : α → ℚ) (x : α) (l : List α) :
    List.Perm (insDesc key x l) (x :: l) := by
  induction l with
  | nil => exact List.Perm.refl _
  | cons y ys ih =>
    by_cases hxy : key y ≤ key x
    · simp only [insDesc, if_pos hxy]
      exact List.Perm.refl _
    · simp only [insDesc, if_neg hxy]
      exact (ih.cons y).trans (List.Perm.swap x y ys)

/-- The stable sort permutes its input. -/
theorem sortDesc_perm {α : Type} (key : α → ℚ) (l : List α) :
    List.Perm (sortDesc key l) l := by
  induction l with
  | nil => exact List.Perm.refl _
  | cons x xs ih =>
    exact (insDesc_perm key x (sortDesc key xs)).trans (ih.cons x)

/-- Inserting into a descending-sorted list keeps it sorted. -/
theorem insDesc_pairwise {α : Type} (key : α → ℚ) (x : α) (l : List α)
    (h : l.Pairwise (fun a b => key b ≤ key a)) :
    (insDesc key x l).Pairwise (fun a b => key b ≤ key a) := by
  induction l with
  | nil => simp [insDesc]
  | cons y ys ih =>
    rw [List.pairwise_cons] at h
    by_cases hxy : key y ≤ key x
    · simp only [insDesc, if_pos hxy]
      rw [List.pairwise_cons]
      refine ⟨?_, List.pairwise_cons.mpr h⟩
      intro b hb
      rcases List.mem_cons.mp hb with hb | hb
      · subst hb; exact hxy
      · exact le_trans (h.1 b hb) hxy
    · simp only [insDesc, if_neg hxy]
      rw [List.pairwise_cons]
      refine ⟨?_, ih h.2⟩
      intro b hb
      have hb' : b ∈ x :: ys := (insDesc_perm key x ys).mem_iff.mp hb
      rcases List.mem_cons.mp hb' with hb' | hb'
      · subst hb'; exact le_of_not_le hxy
      · exact h.1 b hb'

/-- The stable sort is sorted descending by its key. -/
theorem sortDesc_pairwise {α : Type} (key : α → ℚ) (l : List α) :
    (sortDesc key l).Pairwise (fun a b => key b ≤ key a) := by
  induction l with
  | nil => simp [sortDesc]
  | cons x xs ih => exact insDesc_pairwise key x _ ih

/-! ## Theorems for the post-fusion ecosystem filter (claim C2) -/

/-- Evaluation of the heuristic score of `c2doc` under the
prototype-pollution query: both query words occur in the content, no
package-name or ecosystem bonus. -/
theorem heuristic_score_c2doc :
    heuristic_score (query_words "prototype pollution") c2doc = 1/2 := by
  have hm : ((query_words "prototype pollution").filter
      (fun w => ((lower_words c2doc.content).dedup).contains w)).length = 2 := by
    decide
  have hq : (query_words "prototype pollution").length = 2 := by decide
  have hp : (c2doc.package_names.any
      (fun n => (query_words "prototype pollution").any
        (fun w => occursIn w (n.data.map Char.toLower)))) = false := by decide
  have he : ((query_words "prototype pollution").any
      (fun w => occursIn w (c2doc.ecosystem.data.map Char.toLower))) = false := by
    decide
  rw [heuristic_score]
  rw [hm, hq, hp, he]
  norm_num

/-- **C2 counterexample.** A search that requests
`ecosystems = ["PyPI"]` but is served by the degraded scroll path
returns the npm-tagged record `c2doc`: the degraded paths of
`search_vulnerabilities` never re-apply the ecosystem filter
(rag_tool.py lines 119–257), so the claimed invariant fails there. -/
theorem scroll_path_ignores_ecosystem_filter :
    (search_vulnerabilities_scroll_path "prototype pollution" ["PyPI"]
        [c2doc] 5).map ResultEntry.ecosystem = ["npm"] ∧
    "npm" ∉ (["PyPI"] : List String) := by
  constructor
  · have hsel : scroll_select (query_words "prototype pollution") 5 [c2doc]
        = [(c2doc, 1/2)] := by
      simp only [scroll_select, List.foldl_cons, List.foldl_nil,
        heuristic_score_c2doc]
      norm_num
    simp only [search_vulnerabilities_scroll_path, scroll_fallback, hsel,
      sortDesc, insDesc, List.take, List.map]
    simp [c2doc]
  · decide

/-- **C2 amended.** `HybridSearchEngine.hybrid_search` re-applies the
ecosystem filter client-side after fusion, so on that path every
returned record's `ecosystem` is in the requested non-empty list
(hybrid_search.py lines 277–289); the degraded retry-without-filter and
scroll paths of `OSVRAGTool.search_vulnerabilities` do not re-apply it
(see the counterexample). -/
theorem hybrid_search_honors_ecosystem_filter
    (bm25_results vector_results : List InDoc) (ecosystems : List String)
    (limit : ℕ) (vector_weight bm25_weight : ℚ)
    (hne : ecosystems ≠ []) (d : OutDoc)
    (hd : d ∈ hybrid_search bm25_results vector_results ecosystems limit
      vector_weight bm25_weight) :
    d.ecosystem ∈ ecosystems := by
  have hne' : ecosystems.isEmpty = false := by
    cases ecosystems with
    | nil => exact absurd rfl hne
    | cons a t => rfl
  unfold hybrid_search at hd
  rw [hne'] at hd
  simp only [Bool.false_eq_true, if_false] at hd
  have hd' := List.take_subset _ _ hd
  have := List.mem_filter.mp hd'
  simpa using this.2

/-- Witness for C2 (amended) on a one-hit vector result list with
`ecosystems = ["npm"]`. -/
theorem hybrid_search_honors_ecosystem_filter_witness :
    ({ id := "X", ecosystem := "npm", bm25_score := 0, vector_score := 1,
       combined_score := 7/10 } : OutDoc).ecosystem ∈ ["npm"] := by
  refine hybrid_search_honors_ecosystem_filter [] [c2wdoc] ["npm"] 5
    (7/10) (3/10) (by simp) _ ?_
  have hcomb : combine_results [] [c2wdoc] (7/10) (3/10)
      = [{ id := "X", ecosystem := "npm", bm25_score := 0, vector_score := 1,
           combined_score := 7/10 }] := by
    simp only [combine_results, process_bm25, process_vector, List.foldl_cons,
      List.foldl_nil, assocGet, List.find?_nil, Option.map_none', List.nil_append,
      List.map, entry_out, sortDesc, insDesc, bm25_norm, c2wdoc]
    norm_num
  simp [hybrid_search, hcomb]

/-! ## Theorems for the scroll-fallback heuristic (claim C4) -/

/-- The heuristic score is nonnegative: its base term is a quotient of
nonnegative quantities and both bonuses are nonnegative. -/
theorem heuristic_score_nonneg (qw : List (List Char)) (p : ScrollPayload) :
    0 ≤ heuristic_score qw p := by
  rw [heuristic_score]
  refine add_nonneg (add_nonneg ?_ ?_) ?_
  · positivity
  · split <;> norm_num
  · split <;> norm_num

/-- Every entry produced by the selection fold is a scanned point paired
with its heuristic score. -/
theorem scroll_select_fold_mem (qw : List (List Char)) (limit : ℕ) :
    ∀ (points : List ScrollPayload) (acc : List (ScrollPayload × ℚ))
      (e : ScrollPayload × ℚ),
      e ∈ points.foldl (fun acc p =>
        let score := heuristic_score qw p
        if 0 < score ∨ acc.length < limit then acc ++ [(p, score)] else acc) acc →
      e ∈ acc ∨ (e.2 = heuristic_score qw e.1 ∧ e.1 ∈ points) := by
  intro points
  induction points with
  | nil => intro acc e he; exact Or.inl he
  | cons p rest ih =>
    intro acc e he
    simp only [List.foldl_cons] at he
    rcases ih _ e he with hacc | hrest
    · by_cases hc : 0 < heuristic_score qw p ∨ acc.length < limit
      · rw [if_pos hc] at hacc
        rcases List.mem_append.mp hacc with h | h
        · exact Or.inl h
        · rcases List.mem_singleton.mp h with rfl
          exact Or.inr ⟨rfl, List.mem_cons_self _ _⟩
      · rw [if_neg hc] at hacc
        exact Or.inl hacc
    · exact Or.inr ⟨hrest.1, List.mem_cons_of_mem _ hrest.2⟩

/-- The selection fold keeps every positive-score point: the count of
positive-score entries it accumulates equals the count of
positive-score points scanned. -/
theorem scroll_select_fold_countP (qw : List (List Char)) (limit : ℕ) :
    ∀ (points : List ScrollPayload) (acc : List (ScrollPayload × ℚ)),
      (points.foldl (fun acc p =>
        let score := heuristic_score qw p
        if 0 < score ∨ acc.length < limit then acc ++ [(p, score)] else acc)
          acc).countP (fun e => decide (0 < e.2))
        = acc.countP (fun e => decide (0 < e.2))
          + points.countP (fun p => decide (0 < heuristic_score qw p)) := by
  intro points
  induction points with
  | nil => intro acc; simp
  | cons p rest ih =>
    intro acc
    simp only [List.foldl_cons]
    rw [ih]
    by_cases hpos : 0 < heuristic_score qw p
    · rw [if_pos (Or.inl hpos)]
      rw [List.countP_append, List.countP_cons]
      simp [hpos]
      omega
    · have hcount : rest.countP (fun p => decide (0 < heuristic_score qw p))
          + (if decide (0 < heuristic_score qw p) then 1 else 0)
          = (p :: rest).countP (fun p => decide (0 < heuristic_score qw p)) := by
        rw [List.countP_cons]
      by_cases hc : 0 < heuristic_score qw p ∨ acc.length < limit
      · rw [if_pos hc, List.countP_append, List.countP_cons]
        simp [hpos]
      · rw [if_neg hc, List.countP_cons]
        simp [hpos]

/-- In a descending-sorted list whose keys are all nonnegative, a
zero-key element among the first `k` entries forces fewer than `k`
positive-key elements in the whole list. -/
theorem sorted_take_zero_count {α : Type} (key : α → ℚ) :
    ∀ (l : List α) (k : ℕ),
      l.Pairwise (fun a b => key b ≤ key a) →
      (∀ a ∈ l, 0 ≤ key a) →
      ∀ z ∈ l.take k, key z = 0 →
      l.countP (fun a => decide (0 < key a)) < k := by
  intro l
  induction l with
  | nil =>
    intro k _ _ z hz
    simp at hz
  | cons x t ih =>
    intro k hs hnn z hz h0
    cases k with
    | zero => simp at hz
    | succ k' =>
      rw [List.take_succ_cons] at hz
      rw [List.countP_cons]
      rcases List.mem_cons.mp hz with hzx | hzt
      · subst hzx
        have ht0 : ∀ b ∈ t, ¬ (0 < key b) := by
          intro b hb
          have hle : key b ≤ key z := (List.pairwise_cons.mp hs).1 b hb
          rw [h0] at hle
          exact not_lt.mpr hle
        have htz : t.countP (fun a => decide (0 < key a)) = 0 :=
          List.countP_eq_zero.mpr (fun b hb => by simpa using ht0 b hb)
        rw [htz]
        simp [h0]
      · have hlt := ih k' (List.pairwise_cons.mp hs).2
          (fun a ha => hnn a (List.mem_cons_of_mem _ ha)) z hzt h0
        split <;> omega

/-- **C4.** On the degraded scroll-fallback path every returned entry
carries exactly the heuristic score
`0.5 × (fraction of query words in content) + 0.3 (package-name hit)
+ 0.2 (ecosystem hit)` of a scanned point, and a zero-score entry is
returned only when fewer than `limit` scanned points have positive
score (rag_tool.py lines 146–209). -/
theorem scroll_fallback_heuristic_spec (query : String)
    (points : List ScrollPayload) (limit : ℕ) (e : ScrollPayload × ℚ)
    (he : e ∈ scroll_fallback query points limit) :
    e.2 = heuristic_score (query_words query) e.1 ∧ e.1 ∈ points ∧
    (e.2 = 0 →
      (points.filter
        (fun p => 0 < heuristic_score (query_words query) p)).length < limit) := by
  simp only [scroll_fallback] at he
  have hsorted : e ∈ sortDesc Prod.snd
      (scroll_select (query_words query) limit points) :=
    List.take_subset _ _ he
  have hmem : e ∈ scroll_select (query_words query) limit points :=
    (sortDesc_perm _ _).mem_iff.mp hsorted
  rw [scroll_select] at hmem
  rcases scroll_select_fold_mem (query_words query) limit points [] e hmem with
    h | h
  · simp at h
  refine ⟨h.1, h.2, ?_⟩
  intro h0
  have hnn : ∀ a ∈ sortDesc Prod.snd
      (scroll_select (query_words query) limit points), 0 ≤ a.2 := by
    intro a ha
    have ha' : a ∈ scroll_select (query_words query) limit points :=
      (sortDesc_perm _ _).mem_iff.mp ha
    rw [scroll_select] at ha'
    rcases scroll_select_fold_mem (query_words query) limit points [] a ha' with
      h' | h'
    · simp at h'
    · rw [h'.1]; exact heuristic_score_nonneg _ _
  have hcount := sorted_take_zero_count Prod.snd
    (sortDesc Prod.snd (scroll_select (query_words query) limit points)) limit
    (sortDesc_pairwise _ _) hnn e he h0
  have hperm := (sortDesc_perm Prod.snd
    (scroll_select (query_words query) limit points)).countP_eq
    (fun a => decide (0 < a.2))
  rw [hperm] at hcount
  rw [scroll_select] at hcount
  rw [scroll_select_fold_countP (query_words query) limit points []] at hcount
  simpa [List.countP_eq_length_filter] using hcount

/-- Evaluation of the heuristic score of `c4zero` under the query
`alpha`: no overlap anywhere, so the score is `0`. -/
theorem heuristic_score_c4zero :
    heuristic_score (query_words "alpha") c4zero = 0 := by
  have hm : ((query_words "alpha").filter
      (fun w => ((lower_words c4zero.content).dedup).contains w)).length = 0 := by
    decide
  have hq : (query_words "alpha").length = 1 := by decide
  have hp : (c4zero.package_names.any
      (fun n => (query_words "alpha").any
        (fun w => occursIn w (n.data.map Char.toLower)))) = false := by decide
  have he : ((query_words "alpha").any
      (fun w => occursIn w (c4zero.ecosystem.data.map Char.toLower))) = false := by
    decide
  rw [heuristic_score]
  rw [hm, hq, hp, he]
  norm_num

/-- Witness for C4 on a one-point corpus with zero lexical overlap:
the zero-score point is returned (limit 2) and indeed fewer than two
scanned points have positive score. -/
theorem scroll_fallback_heuristic_spec_witness :
    ([c4zero].filter
      (fun p => 0 < heuristic_score (query_words "alpha") p)).length < 2 := by
  have hsel : scroll_select (query_words "alpha") 2 [c4zero]
      = [(c4zero, 0)] := by
    simp only [scroll_select, List.foldl_cons, List.foldl_nil,
      heuristic_score_c4zero]
    norm_num
  have hmem : (c4zero, (0:ℚ)) ∈ scroll_fallback "alpha" [c4zero] 2 := by
    simp [scroll_fallback, hsel, sortDesc, insDesc]
  exact (scroll_fallback_heuristic_spec "alpha" [c4zero] 2 (c4zero, 0) hmem).2.2 rfl

/-! ## Theorems for score fusion (claim C3)

The `doc_scores` dict built by `_combine_results` is characterized
explicitly: under distinct non-empty ids it is the BM25 hits in order
(each with the vector score of the matching vector hit, `0` when none)
followed by the vector-only hits in order (each with BM25 score `0`). -/

/-- `find?` over the mapped BM25 entries searches the underlying
docs. -/
theorem find?_entry_map (bm25 : List InDoc) (F : InDoc → CEntry) (k : String) :
    ((bm25.map (fun d => (d.id, F d))).find? (fun p => p.1 == k))
      = (bm25.find? (fun d => d.id == k)).map (fun d => (d.id, F d)) := by
  rw [List.find?_map]
  rfl

/-- With duplicate-free ids, `find?` by a member's id returns exactly
that member. -/
theorem find?_of_nodup_mem (l : List InDoc) (d : InDoc)
    (hnd : (l.map InDoc.id).Nodup) (hd : d ∈ l) :
    l.find? (fun x => x.id == d.id) = some d := by
  induction l with
  | nil => simp at hd
  | cons a t ih =>
    rw [List.map_cons, List.nodup_cons] at hnd
    rcases List.mem_cons.mp hd with rfl | hd'
    · exact List.find?_cons_of_pos t (by simp)
    · have hne : ¬ (a.id == d.id) = true := by
        simp only [beq_iff_eq]
        intro hcontra
        exact hnd.1 (hcontra ▸ List.mem_map_of_mem InDoc.id hd')
      rw [List.find?_cons_of_neg t hne]
      exact ih hnd.2 hd'

/-- The BM25 normalization agrees with plain division by 10 on the
nonnegative scores a BM25 index produces. -/
theorem bm25_norm_of_nonneg (b : ℚ) (hb : 0 ≤ b) : bm25_norm b = b / 10 := by
  rcases lt_or_eq_of_le hb with h | h
  · rw [bm25_norm, if_pos h]
  · rw [bm25_norm, if_neg (by rw [← h]; exact lt_irrefl 0)]
    rw [← h]
    norm_num

/-- The BM25 loop of `_combine_results`, explicitly: with distinct
non-empty ids every hit appends a fresh entry. -/
theorem process_bm25_go (bm25 : List InDoc) :
    ∀ (acc : List (String × CEntry)),
      (∀ d ∈ bm25, d.id ≠ "") →
      ((bm25.map InDoc.id).Nodup) →
      (∀ d ∈ bm25, ∀ p ∈ acc, p.1 ≠ d.id) →
      bm25.foldl (fun m d => if d.id == "" then m
          else assocSet m d.id ⟨d, d.score, 0⟩) acc
        = acc ++ bm25.map (fun d => (d.id, ⟨d, d.score, 0⟩)) := by
  induction bm25 with
  | nil => intro acc _ _ _; simp
  | cons d rest ih =>
    intro acc hid hnd hdisj
    rw [List.map_cons, List.nodup_cons] at hnd
    simp only [List.foldl_cons]
    rw [if_neg (by simp [hid d (List.mem_cons_self _ _)])]
    have hany : (acc.any (fun p => p.1 == d.id)) = false := by
      rw [List.any_eq_false]
      intro p hp
      simpa using hdisj d (List.mem_cons_self _ _) p hp
    rw [assocSet, if_neg (by simp [hany])]
    have hdisj' : ∀ x ∈ rest, ∀ p ∈ acc ++ [(d.id, (⟨d, d.score, 0⟩ : CEntry))],
        p.1 ≠ x.id := by
      intro x hx p hp
      rcases List.mem_append.mp hp with hp | hp
      · exact hdisj x (List.mem_cons_of_mem _ hx) p hp
      · rcases List.mem_singleton.mp hp with rfl
        intro hcontra
        exact hnd.1 ((show d.id = x.id from hcontra) ▸
          List.mem_map_of_mem InDoc.id hx)
    have hrec := ih (acc ++ [(d.id, (⟨d, d.score, 0⟩ : CEntry))])
      (fun x hx => hid x (List.mem_cons_of_mem _ hx)) hnd.2 hdisj'
    rw [hrec, List.map_cons, List.append_assoc, List.singleton_append]

/-- The `doc_scores` dict after the BM25 loop. -/
theorem process_bm25_eq (bm25 : List InDoc)
    (hid : ∀ d ∈ bm25, d.id ≠ "")
    (hnd : (bm25.map InDoc.id).Nodup) :
    process_bm25 bm25 = bm25.map (fun d => (d.id, ⟨d, d.score, 0⟩)) := by
  have := process_bm25_go bm25 [] hid hnd (by simp)
  simpa [process_bm25] using this

/-- The vector loop of `_combine_results`, explicitly: a vector hit
matching an existing (BM25-derived) entry only overwrites that entry's
`vector_score`; all others are appended behind the existing entries in
scan order. -/
theorem process_vector_go (vector : List InDoc) :
    ∀ (bm25 : List InDoc) (g : InDoc → ℚ) (ext : List (String × CEntry)),
      ((bm25.map InDoc.id).Nodup) →
      ((vector.map InDoc.id).Nodup) →
      (∀ v ∈ vector, ∀ p ∈ ext, p.1 ≠ v.id) →
      process_vector vector
          (bm25.map (fun d => (d.id, ⟨d, d.score, g d⟩)) ++ ext)
        = bm25.map (fun d => (d.id,
            ⟨d, d.score,
             ((vector.find? (fun v => v.id == d.id)).map InDoc.score).getD (g d)⟩))
          ++ ext
          ++ (vector.filter
              (fun v => !(bm25.any (fun b => b.id == v.id)))).map
            (fun v => (v.id, ⟨v, 0, v.score⟩)) := by
  induction vector with
  | nil =>
    intro bm25 g ext hbn hvn hext
    simp [process_vector]
  | cons v rest ih =>
    intro bm25 g ext hbn hvn hext
    rw [List.map_cons, List.nodup_cons] at hvn
    have hext' : ∀ r ∈ rest, ∀ p ∈ ext, p.1 ≠ r.id :=
      fun r hr p hp => hext r (List.mem_cons_of_mem _ hr) p hp
    simp only [process_vector, List.foldl_cons]
    by_cases hb : (bm25.any (fun b => b.id == v.id)) = true
    · -- v overwrites the vector score of the matching BM25 entry
      cases hfind : bm25.find? (fun d => d.id == v.id) with
      | none =>
        exfalso
        rcases List.any_eq_true.mp hb with ⟨b, hbmem, hbid⟩
        exact (List.find?_eq_none.mp hfind b hbmem) hbid
      | some b =>
        have hbid : b.id = v.id := by simpa using List.find?_some hfind
        have hbmem : b ∈ bm25 := List.mem_of_find?_eq_some hfind
        have hget : assocGet
            (bm25.map (fun d => (d.id, ⟨d, d.score, g d⟩)) ++ ext) v.id
            = some ⟨b, b.score, g b⟩ := by
          rw [assocGet, List.find?_append, find?_entry_map, hfind]
          simp
        simp only [hget]
        have hanym : ((bm25.map (fun d => (d.id, (⟨d, d.score, g d⟩ : CEntry)))
            ++ ext).any (fun p => p.1 == v.id)) = true := by
          rw [List.any_eq_true]
          exact ⟨(b.id, ⟨b, b.score, g b⟩),
            List.mem_append_left _ (List.mem_map_of_mem _ hbmem),
            by simpa using hbid⟩
        rw [assocSet, if_pos hanym, List.map_append, List.map_map]
        have hextmap : ext.map
            (fun p => if p.1 == v.id
              then (v.id, (⟨b, b.score, v.score⟩ : CEntry)) else p) = ext := by
          have hpt : ∀ p ∈ ext,
              (if p.1 == v.id
                then (v.id, (⟨b, b.score, v.score⟩ : CEntry)) else p) = p :=
            fun p hp => if_neg (by
              simpa using hext v (List.mem_cons_self _ _) p hp)
          calc ext.map _ = ext.map (fun p => p) := List.map_congr_left hpt
            _ = ext := List.map_id' ext
        rw [hextmap]
        have hbmmap : bm25.map
            ((fun p => if p.1 == v.id
                then (v.id, (⟨b, b.score, v.score⟩ : CEntry)) else p)
              ∘ (fun d => (d.id, ⟨d, d.score, g d⟩)))
            = bm25.map (fun d => (d.id,
                (⟨d, d.score,
                  if d.id == v.id then v.score else g d⟩ : CEntry))) := by
          apply List.map_congr_left
          intro d hd
          by_cases hdv : (d.id == v.id) = true
          · have hdb : d = b :=
              List.inj_on_of_nodup_map hbn hd hbmem
                (by rw [hbid]; exact beq_iff_eq.mp hdv)
            simp only [Function.comp_apply, if_pos hdv, hdv, if_true]
            subst hdb
            rw [beq_iff_eq.mp hdv]
          · simp only [Function.comp_apply, hdv]
            rw [if_neg (by simp [hdv]), if_neg (by simp [hdv])]
        rw [hbmmap]
        have hrec := ih bm25 (fun d => if d.id == v.id then v.score else g d)
          ext hbn hvn.2 hext'
        simp only [process_vector] at hrec
        rw [hrec]
        have hfiltc : ((v :: rest).filter
            (fun x => !(bm25.any (fun b => b.id == x.id))))
            = rest.filter (fun x => !(bm25.any (fun b => b.id == x.id))) :=
          List.filter_cons_of_neg (by simp [hb])
        rw [hfiltc]
        have hbmeq : bm25.map (fun d => (d.id,
            (⟨d, d.score,
              ((rest.find? (fun x => x.id == d.id)).map InDoc.score).getD
                (if d.id == v.id then v.score else g d)⟩ : CEntry)))
            = bm25.map (fun d => (d.id,
              (⟨d, d.score,
                (((v :: rest).find? (fun x => x.id == d.id)).map
                  InDoc.score).getD (g d)⟩ : CEntry))) := by
          apply List.map_congr_left
          intro d hd
          by_cases hvd : (v.id == d.id) = true
          · have hveq : v.id = d.id := beq_iff_eq.mp hvd
            have hdv : (d.id == v.id) = true := by simp [hveq]
            have hrn : rest.find? (fun x => x.id == d.id) = none :=
              List.find?_eq_none.mpr (fun r hr => by
                simp only [beq_iff_eq]
                intro hcontra
                exact hvn.1 (hveq ▸ hcontra ▸
                  List.mem_map_of_mem InDoc.id hr))
            rw [hrn, List.find?_cons]
            simp only [hvd, hdv, if_true]
            rfl
          · have hvd' : (v.id == d.id) = false := by
              simpa using hvd
            have hdv' : (d.id == v.id) = false := by
              simp only [beq_eq_false_iff_ne] at hvd' ⊢
              exact fun h => hvd' h.symm
            rw [List.find?_cons]
            simp only [hvd', hdv', if_false]
            rfl
        rw [hbmeq]
    · -- v has no BM25 match and is appended as a fresh entry
      have hbf : (bm25.any (fun b => b.id == v.id)) = false := by
        simpa using hb
      have hgetn : assocGet
          (bm25.map (fun d => (d.id, ⟨d, d.score, g d⟩)) ++ ext) v.id
          = none := by
        rw [assocGet, List.find?_append, find?_entry_map]
        have h1 : bm25.find? (fun d => d.id == v.id) = none :=
          List.find?_eq_none.mpr (fun b hbmem => by
            simpa using List.any_eq_false.mp hbf b hbmem)
        have h2 : ext.find? (fun p => p.1 == v.id) = none :=
          List.find?_eq_none.mpr (fun p hp => by
            simpa using hext v (List.mem_cons_self _ _) p hp)
        rw [h1, h2]
        rfl
      simp only [hgetn]
      rw [List.append_assoc]
      have hextnew : ∀ r ∈ rest,
          ∀ p ∈ ext ++ [(v.id, (⟨v, 0, v.score⟩ : CEntry))], p.1 ≠ r.id := by
        intro r hr p hp
        rcases List.mem_append.mp hp with hp | hp
        · exact hext' r hr p hp
        · rcases List.mem_singleton.mp hp with rfl
          intro hcontra
          exact hvn.1 ((show v.id = r.id from hcontra) ▸
            List.mem_map_of_mem InDoc.id hr)
      have hrec := ih bm25 g (ext ++ [(v.id, (⟨v, 0, v.score⟩ : CEntry))])
        hbn hvn.2 hextnew
      simp only [process_vector] at hrec
      rw [hrec]
      have hfiltc : ((v :: rest).filter
          (fun x => !(bm25.any (fun b => b.id == x.id))))
          = v :: rest.filter (fun x => !(bm25.any (fun b => b.id == x.id))) :=
        List.filter_cons_of_pos (by simp [hbf])
      rw [hfiltc]
      have hbmeq : bm25.map (fun d => (d.id,
          (⟨d, d.score,
            ((rest.find? (fun x => x.id == d.id)).map InDoc.score).getD
              (g d)⟩ : CEntry)))
          = bm25.map (fun d => (d.id,
            (⟨d, d.score,
              (((v :: rest).find? (fun x => x.id == d.id)).map
                InDoc.score).getD (g d)⟩ : CEntry))) := by
        apply List.map_congr_left
        intro d hd
        have hdvf : (d.id == v.id) = false := by
          simpa using List.any_eq_false.mp hbf d hd
        have hvdf : (v.id == d.id) = false := by
          simp only [beq_eq_false_iff_ne] at hdvf ⊢
          exact fun h => hdvf h.symm
        rw [List.find?_cons]
        simp only [hvdf, if_false]
      rw [hbmeq]
      rw [List.map_cons, List.append_assoc, List.append_assoc,
        List.singleton_append]
      exact (List.append_assoc _ _ _).symm

/-- The complete `doc_scores` dict of `_combine_results`, explicitly. -/
theorem process_all_eq (bm25 vector : List InDoc)
    (hid : ∀ d ∈ bm25, d.id ≠ "")
    (hbn : (bm25.map InDoc.id).Nodup)
    (hvn : (vector.map InDoc.id).Nodup) :
    process_vector vector (process_bm25 bm25)
      = bm25.map (fun d => (d.id, ⟨d, d.score, vector_score_of vector d.id⟩))
        ++ (vector.filter (fun v => !(bm25.any (fun b => b.id == v.id)))).map
          (fun v => (v.id, ⟨v, 0, v.score⟩)) := by
  rw [process_bm25_eq bm25 hid hbn]
  have h2 := process_vector_go vector bm25 (fun _ => 0) [] hbn hvn (by simp)
  simp only [List.append_nil] at h2
  rw [h2]
  congr 1

/-- Every entry of the fused dict carries a nonnegative BM25 score when
the BM25 hits have nonnegative scores. -/
theorem process_all_bm25_nonneg (bm25 vector : List InDoc)
    (hpos : ∀ d ∈ bm25, 0 ≤ d.score)
    (hid : ∀ d ∈ bm25, d.id ≠ "")
    (hbn : (bm25.map InDoc.id).Nodup)
    (hvn : (vector.map InDoc.id).Nodup) :
    ∀ p ∈ process_vector vector (process_bm25 bm25), 0 ≤ p.2.bm25_score := by
  intro p hp
  rw [process_all_eq bm25 vector hid hbn hvn] at hp
  rcases List.mem_append.mp hp with hp | hp
  · rcases List.mem_map.mp hp with ⟨d, hd, rfl⟩
    exact hpos d hd
  · rcases List.mem_map.mp hp with ⟨v, _, rfl⟩
    exact le_refl 0

/-- **C3 amended.** For fixed result sets with distinct non-empty ids
and nonnegative BM25 scores, fusion gives every document of either set
an entry with `combinedScore = vectorWeight·vectorScore +
bm25Weight·(bm25Score/10)`, using `0` for a source the document is
missing from, and returns the entries sorted by `combinedScore`
descending; being a pure function of its inputs the ordering is
reproducible, with ties retaining dict insertion order (BM25 hits in
BM25 order, then vector-only hits) rather than ascending id
(hybrid_search.py lines 389–443). -/
theorem combine_results_fusion_spec (bm25_results vector_results : List InDoc)
    (vector_weight bm25_weight : ℚ)
    (hpos : ∀ d ∈ bm25_results, 0 ≤ d.score)
    (hid : ∀ d ∈ bm25_results, d.id ≠ "")
    (hbn : (bm25_results.map InDoc.id).Nodup)
    (hvn : (vector_results.map InDoc.id).Nodup) :
    (combine_results bm25_results vector_results
        vector_weight bm25_weight).Pairwise
      (fun a b => b.combined_score ≤ a.combined_score) ∧
    (∀ e ∈ combine_results bm25_results vector_results
        vector_weight bm25_weight,
      e.combined_score
        = vector_weight * e.vector_score + bm25_weight * (e.bm25_score / 10)) ∧
    (∀ d ∈ bm25_results,
      ∃ e ∈ combine_results bm25_results vector_results
          vector_weight bm25_weight,
        e.id = d.id ∧ e.bm25_score = d.score ∧
        e.vector_score = vector_score_of vector_results d.id) ∧
    (∀ d ∈ vector_results,
      ∃ e ∈ combine_results bm25_results vector_results
          vector_weight bm25_weight,
        e.id = d.id ∧ e.vector_score = d.score) ∧
    (∀ d ∈ vector_results, (∀ b ∈ bm25_results, b.id ≠ d.id) →
      ∃ e ∈ combine_results bm25_results vector_results
          vector_weight bm25_weight,
        e.id = d.id ∧ e.bm25_score = 0 ∧ e.vector_score = d.score) ∧
    (∀ d ∈ bm25_results, (∀ v ∈ vector_results, v.id ≠ d.id) →
      ∃ e ∈ combine_results bm25_results vector_results
          vector_weight bm25_weight,
        e.id = d.id ∧ e.bm25_score = d.score ∧ e.vector_score = 0) := by
  have hperm : List.Perm
      (combine_results bm25_results vector_results vector_weight bm25_weight)
      ((process_vector vector_results (process_bm25 bm25_results)).map
        (entry_out vector_weight bm25_weight)) := by
    rw [combine_results]
    exact sortDesc_perm _ _
  have hmem_out : ∀ e, e ∈ combine_results bm25_results vector_results
      vector_weight bm25_weight ↔
      ∃ p ∈ process_vector vector_results (process_bm25 bm25_results),
        entry_out vector_weight bm25_weight p = e := by
    intro e
    rw [hperm.mem_iff, List.mem_map]
  refine ⟨?_, ?_, ?_, ?_, ?_, ?_⟩
  · rw [combine_results]
    exact sortDesc_pairwise _ _
  · intro e he
    rcases (hmem_out e).mp he with ⟨p, hp, rfl⟩
    have hnn := process_all_bm25_nonneg bm25_results vector_results
      hpos hid hbn hvn p hp
    simp only [entry_out]
    rw [bm25_norm_of_nonneg _ hnn]
  · intro d hd
    have hpmem : (d.id, (⟨d, d.score,
        vector_score_of vector_results d.id⟩ : CEntry))
        ∈ process_vector vector_results (process_bm25 bm25_results) := by
      rw [process_all_eq bm25_results vector_results hid hbn hvn]
      exact List.mem_append_left _ (List.mem_map_of_mem _ hd)
    refine ⟨entry_out vector_weight bm25_weight
      (d.id, ⟨d, d.score, vector_score_of vector_results d.id⟩),
      (hmem_out _).mpr ⟨_, hpmem, rfl⟩, rfl, rfl, rfl⟩
  · intro d hd
    by_cases hb : (bm25_results.any (fun b => b.id == d.id)) = true
    · rcases List.any_eq_true.mp hb with ⟨b, hbmem, hbid⟩
      have hbid' : b.id = d.id := beq_iff_eq.mp hbid
      have hvlook : vector_score_of vector_results b.id = d.score := by
        rw [vector_score_of, hbid', find?_of_nodup_mem vector_results d hvn hd]
        rfl
      have hpmem : (b.id, (⟨b, b.score,
          vector_score_of vector_results b.id⟩ : CEntry))
          ∈ process_vector vector_results (process_bm25 bm25_results) := by
        rw [process_all_eq bm25_results vector_results hid hbn hvn]
        exact List.mem_append_left _ (List.mem_map_of_mem _ hbmem)
      refine ⟨entry_out vector_weight bm25_weight
        (b.id, ⟨b, b.score, vector_score_of vector_results b.id⟩),
        (hmem_out _).mpr ⟨_, hpmem, rfl⟩, hbid', ?_⟩
      simp only [entry_out]
      exact hvlook
    · have hbf : (bm25_results.any (fun b => b.id == d.id)) = false := by
        simpa using hb
      have hpmem : (d.id, (⟨d, 0, d.score⟩ : CEntry))
          ∈ process_vector vector_results (process_bm25 bm25_results) := by
        rw [process_all_eq bm25_results vector_results hid hbn hvn]
        refine List.mem_append_right _ (List.mem_map_of_mem _ ?_)
        rw [List.mem_filter]
        exact ⟨hd, by simp [hbf]⟩
      exact ⟨entry_out vector_weight bm25_weight (d.id, ⟨d, 0, d.score⟩),
        (hmem_out _).mpr ⟨_, hpmem, rfl⟩, rfl, rfl⟩
  · intro d hd hnome
    have hbf : (bm25_results.any (fun b => b.id == d.id)) = false := by
      rw [List.any_eq_false]
      intro b hbmem
      simpa using hnome b hbmem
    have hpmem : (d.id, (⟨d, 0, d.score⟩ : CEntry))
        ∈ process_vector vector_results (process_bm25 bm25_results) := by
      rw [process_all_eq bm25_results vector_results hid hbn hvn]
      refine List.mem_append_right _ (List.mem_map_of_mem _ ?_)
      rw [List.mem_filter]
      exact ⟨hd, by simp [hbf]⟩
    exact ⟨entry_out vector_weight bm25_weight (d.id, ⟨d, 0, d.score⟩),
      (hmem_out _).mpr ⟨_, hpmem, rfl⟩, rfl, rfl, rfl⟩
  · intro d hd hnov
    have hvnone : vector_results.find? (fun v => v.id == d.id) = none :=
      List.find?_eq_none.mpr (fun v hv => by simpa using hnov v hv)
    have hvz : vector_score_of vector_results d.id = 0 := by
      rw [vector_score_of, hvnone]
      rfl
    have hpmem : (d.id, (⟨d, d.score,
        vector_score_of vector_results d.id⟩ : CEntry))
        ∈ process_vector vector_results (process_bm25 bm25_results) := by
      rw [process_all_eq bm25_results vector_results hid hbn hvn]
      exact List.mem_append_left _ (List.mem_map_of_mem _ hd)
    refine ⟨entry_out vector_weight bm25_weight
      (d.id, ⟨d, d.score, vector_score_of vector_results d.id⟩),
      (hmem_out _).mpr ⟨_, hpmem, rfl⟩, rfl, rfl, ?_⟩
    simp only [entry_out]
    exact hvz

/-- Witness for C3 (amended) on one BM25 hit and one vector hit. -/
theorem combine_results_fusion_spec_witness :
    (combine_results [{ id := "K", ecosystem := "npm", score := 2 }]
        [c2wdoc] (7/10) (3/10)).Pairwise
      (fun a b => b.combined_score ≤ a.combined_score) :=
  (combine_results_fusion_spec [{ id := "K", ecosystem := "npm", score := 2 }]
    [c2wdoc] (7/10) (3/10)
    (by intro d hd; rcases List.mem_singleton.mp hd with rfl; norm_num)
    (by intro d hd; rcases List.mem_singleton.mp hd with rfl; simp)
    (by simp) (by simp)).1

/-- **C3 counterexample.** Two vector-only hits with equal scores,
listed as `B` then `A`: fusion returns them in insertion order
`[B, A]`, not in the claimed ascending-id tie-break order `[A, B]`
(hybrid_search.py line 441 sorts only by `combined_score`; Python's
stable sort keeps insertion order on ties). -/
theorem combine_results_tiebreak_not_id_ascending :
    ((combine_results [] [c3B, c3A] (7/10) (3/10)).map OutDoc.id
      = ["B", "A"]) ∧
    ¬ (combine_results [] [c3B, c3A] (7/10) (3/10)).Pairwise
        (fun a b => b.combined_score < a.combined_score ∨
          (b.combined_score = a.combined_score ∧ a.id < b.id)) := by
  have h1 : process_vector [c3B, c3A] (process_bm25 [])
      = [("B", ⟨c3B, 0, 1/2⟩), ("A", ⟨c3A, 0, 1/2⟩)] := by
    simp +decide [process_vector, process_bm25, assocGet, c3B, c3A]
  have hrun : combine_results [] [c3B, c3A] (7/10) (3/10)
      = [{ id := "B", ecosystem := "npm", bm25_score := 0,
           vector_score := 1/2, combined_score := 7/20 },
         { id := "A", ecosystem := "npm", bm25_score := 0,
           vector_score := 1/2, combined_score := 7/20 }] := by
    rw [combine_results, h1]
    simp only [List.map, entry_out, c3B, c3A]
    norm_num [sortDesc, insDesc, bm25_norm]
  refine ⟨by rw [hrun]; rfl, ?_⟩
  rw [hrun]
  intro hpw
  have h2 := (List.pairwise_cons.mp hpw).1 _ (List.mem_cons_self _ _)
  rcases h2 with h2 | h2
  · norm_num at h2
  · have hlt := h2.2
    simp only at hlt
    rw [String.lt_iff_toList_lt] at hlt
    exact absurd hlt (by decide)

end ThreatIntel
